import Mathlib

/- A shallow embedding of the CardMan front-end helper code: the JavaScript
   functions that call the OpenAI chat-completions endpoint, convert the
   model's JSON answer into the card record stored in DynamoDB, and format
   card lists for recommendation prompts.  JavaScript values are modelled by
   `JSValue`, JS numbers by `Option ℚ` (`none` models NaN), and thrown
   exceptions by `Except JsErr`. -/

/-- A JavaScript value as it appears in this code base.  JS numbers are
modelled as `Option ℚ`, with `none` playing the role of NaN (every number
actually produced by the embedded code is a finite decimal). -/
inductive JSValue : Type where
  | undefined : JSValue
  | null : JSValue
  | bool : Bool → JSValue
  | num : Option ℚ → JSValue
  | str : String → JSValue
  | arr : List JSValue → JSValue
  | obj : List (String × JSValue) → JSValue

/-- Errors thrown by the embedded code: `missingField f` models
`new Error('Missing <f> in AI response')`, `typeError` models a TypeError
from a property access on null/undefined or a method call on a value that
lacks it, `parseError` models a SyntaxError from `JSON.parse` or
`response.json()`, and `externalService status message` models the
`new Error('OpenAI API error: <status> - <message>')` thrown on a
non-success transport status. -/
inductive JsErr : Type where
  | missingField : String → JsErr
  | typeError : JsErr
  | parseError : JsErr
  | externalService : Nat → String → JsErr
deriving DecidableEq

/-- The status carried by an error, when it carries one. -/
def carriedStatus : JsErr → Option Nat
  | .externalService s _ => some s
  | _ => none

/-- JavaScript truthiness: undefined, null, false, 0, NaN and "" are falsy;
every other value (including empty arrays and empty objects) is truthy. -/
def truthy : JSValue → Bool
  | .undefined => false
  | .null => false
  | .bool b => b
  | .num none => false
  | .num (some q) => decide (q ≠ 0)
  | .str s => !s.isEmpty
  | .arr _ => true
  | .obj _ => true

/-- First binding of a key in an object's field list. -/
def lookupField {α : Type} : List (String × α) → String → Option α
  | [], _ => none
  | p :: ps, k => if p.1 = k then some p.2 else lookupField ps k

/-- Property read `v[k]`.  Reading a property of null or undefined throws a
TypeError; a missing key on an object yields undefined; arrays and strings
answer numeric keys with their elements/characters; other primitives have no
own properties, so any key yields undefined. -/
def getProp (v : JSValue) (k : String) : Except JsErr JSValue :=
  match v with
  | .undefined => .error .typeError
  | .null => .error .typeError
  | .obj fields => .ok ((lookupField fields k).getD .undefined)
  | .arr xs =>
      .ok (match k.toNat? with
           | some i => xs.getD i .undefined
           | none => .undefined)
  | .str s =>
      .ok (match k.toNat? with
           | some i => ((s.data.get? i).map (fun c => JSValue.str ⟨[c]⟩)).getD .undefined
           | none => .undefined)
  | _ => .ok .undefined

/-- Insert-or-overwrite on an association list, keeping the original key
position on overwrite, exactly as assignment to a JS object property does. -/
def updateAssoc {α : Type} (fs : List (String × α)) (k : String) (x : α) :
    List (String × α) :=
  if fs.any (fun p => p.1 == k) then
    fs.map (fun p => if p.1 = k then (k, x) else p)
  else
    fs ++ [(k, x)]

/-- Property write `v[k] = x`.  On an object this inserts or overwrites the
key; on any other value the sloppy-mode assignment is silently ignored
(this file is a plain script, not strict mode). -/
def setProp (v : JSValue) (k : String) (x : JSValue) : JSValue :=
  match v with
  | .obj fields => .obj (updateAssoc fields k x)
  | _ => v

/-- The characters matched by the JS regex class `\s`. -/
def jsWhitespaceChar (c : Char) : Bool :=
  c.toNat = 32 || c.toNat = 9 || c.toNat = 10 || c.toNat = 13 ||
  c.toNat = 11 || c.toNat = 12 || c.toNat = 0xa0 || c.toNat = 0x1680 ||
  (0x2000 ≤ c.toNat && c.toNat ≤ 0x200a) ||
  c.toNat = 0x2028 || c.toNat = 0x2029 || c.toNat = 0x202f ||
  c.toNat = 0x205f || c.toNat = 0x3000 || c.toNat = 0xfeff

/-- Lowercase ASCII letter. -/
def isAsciiLowerChar (c : Char) : Bool := 97 ≤ c.toNat && c.toNat ≤ 122

/-- Uppercase ASCII letter. -/
def isAsciiUpperChar (c : Char) : Bool := 65 ≤ c.toNat && c.toNat ≤ 90

/-- ASCII digit. -/
def isAsciiDigitChar (c : Char) : Bool := 48 ≤ c.toNat && c.toNat ≤ 57

/-- Per-character model of `String.prototype.toLowerCase` (the inputs the
claims exercise are ASCII; non-ASCII letters are left unchanged here and are
stripped by the following regex in any case). -/
def lowerChar (c : Char) : Char :=
  if isAsciiUpperChar c then Char.ofNat (c.toNat + 32) else c

/-- A character kept by `.replace(/[^a-z0-9\s]/g, '')`. -/
def keptChar (c : Char) : Bool :=
  isAsciiLowerChar c || isAsciiDigitChar c || jsWhitespaceChar c

/-- `.replace(/\s+/g, '-')` on a character list: each maximal run of
whitespace becomes a single hyphen.  The flag records whether the previous
character belonged to a whitespace run. -/
def collapseWsAux : Bool → List Char → List Char
  | _, [] => []
  | prevWs, c :: rest =>
      if jsWhitespaceChar c then
        if prevWs then collapseWsAux true rest
        else '-' :: collapseWsAux true rest
      else c :: collapseWsAux false rest

/-- The character-list form of the slug pipeline
`.toLowerCase().replace(/[^a-z0-9\s]/g, '').replace(/\s+/g, '-')`. -/
def slugChars (l : List Char) : List Char :=
  collapseWsAux false ((l.map lowerChar).filter keptChar)

/-- `card_id` derivation from `card_name` (lines 186-188 of the helper). -/
def cardId (s : String) : String := ⟨slugChars s.data⟩

/-- Category-key derivation: the same slug pipeline followed by
`.substring(0, 30)` (lines 166-169). -/
def categoryKey (s : String) : String := ⟨(slugChars s.data).take 30⟩

/-- Decimal digits to the natural number they denote. -/
def digitsToNat (l : List Char) : Nat :=
  l.foldl (fun n c => 10 * n + (c.toNat - 48)) 0

/-- The fraction digits `parseFloat` consumes after the integer part: when
the remaining input starts with a dot, the digits following it; nothing
otherwise. -/
def floatFracDigits : List Char → List Char
  | [] => []
  | c :: r => if c = '.' then r.takeWhile Char.isDigit else []

/-- `parseFloat` restricted to the token shapes produced by the `[\d.]+`
match (strings of digits and dots): an optional run of integer digits, then
an optional dot followed by fraction digits; at least one digit must be
consumed, otherwise the result is NaN (`none`). -/
def parseFloatTok (s : String) : Option ℚ :=
  if s.data.takeWhile Char.isDigit = [] ∧
     floatFracDigits (s.data.dropWhile Char.isDigit) = [] then none
  else
    some ((digitsToNat (s.data.takeWhile Char.isDigit) : ℚ) +
      (digitsToNat (floatFracDigits (s.data.dropWhile Char.isDigit)) : ℚ) /
      (10 : ℚ) ^ (floatFracDigits (s.data.dropWhile Char.isDigit)).length)

/-- The first match of `/[\d.]+/` in a string, if any. -/
def firstNumToken (s : String) : Option String :=
  let l := s.data.dropWhile (fun c => !(c.isDigit || c == '.'))
  match l with
  | [] => none
  | _ => some ⟨l.takeWhile (fun c => c.isDigit || c == '.')⟩

/-- `Number(x.toFixed(2))` on a finite value: round to the closest multiple
of 1/100, ties toward the larger value, as the toFixed specification
prescribes. -/
def roundTo2 (q : ℚ) : ℚ := (⌊q * 100 + 1 / 2⌋ : ℚ) / 100

/-- The fraction part of a well-formed decimal numeral: after the integer
digits, either nothing remains, or a dot followed by digits only. -/
def specFracPart : List Char → Option (List Char)
  | [] => some []
  | c :: r => if c = '.' ∧ r.all Char.isDigit then some r else none

/-- The spec's reading of a numeric token: a string that is entirely an
optional run of integer digits, optionally followed by a dot and fraction
digits, containing at least one digit; its value is the decimal it denotes.
Used to compare the code's `parseFloat`-based extraction against the spec's
words. -/
def specDecimalValue (s : String) : Option ℚ :=
  match specFracPart (s.data.dropWhile Char.isDigit) with
  | none => none
  | some fr =>
      if s.data.takeWhile Char.isDigit = [] ∧ fr = [] then none
      else
        some ((digitsToNat (s.data.takeWhile Char.isDigit) : ℚ) +
          (digitsToNat fr : ℚ) / (10 : ℚ) ^ fr.length)

/-- Rate extraction from a rate string (lines 171-180): first `[\d.]+`
match, defaulting to "0", through `parseFloat` and
`Number(rate.toFixed(2))`.  `none` models NaN. -/
def extractRate (s : String) : Option ℚ :=
  (parseFloatTok ((firstNumToken s).getD "0")).map roundTo2

/-- The value stored per category key: `{rate, description}`. -/
structure CatInfo : Type where
  rate : Option ℚ
  description : String
deriving DecidableEq

/-- The object accumulated by the `forEach` over `cashback_categories`. -/
abbrev CatMap : Type := List (String × CatInfo)

/-- Decimal string for a non-negative rational whose denominator divides a
power of ten (the only numbers the embedded code produces); other values
fall back to a fraction rendering, which no reachable code path hits. -/
def jsNumToStringNonneg (q : ℚ) : String :=
  match (List.range 21).find? (fun k => (q * (10 : ℚ) ^ k).den = 1) with
  | some 0 => toString q.num
  | some (k + 1) =>
      let n := (q * (10 : ℚ) ^ (k + 1)).num.toNat
      let s := toString n
      let s' := ⟨List.replicate (k + 2 - s.length) '0'⟩ ++ s
      let l := s'.data
      String.mk (l.take (l.length - (k + 1))) ++ "." ++
        String.mk (l.drop (l.length - (k + 1)))
  | none => toString q.num ++ "/" ++ toString q.den

/-- `Number.prototype.toString` model. -/
def jsNumToString (q : ℚ) : String :=
  if q < 0 then "-" ++ jsNumToStringNonneg (-q) else jsNumToStringNonneg q

/-- String coercion of a JS value, as performed by template literals and by
`.toString()` on the values reaching it here.  Array elements are joined
with commas, null/undefined elements becoming empty, as `Array.prototype.join`
does.  The fuel argument bounds array nesting depth; no value in this code
base nests anywhere near the bound used below. -/
def jsToStringFuel : Nat → JSValue → String
  | _, .undefined => "undefined"
  | _, .null => "null"
  | _, .bool true => "true"
  | _, .bool false => "false"
  | _, .num none => "NaN"
  | _, .num (some q) => jsNumToString q
  | _, .str s => s
  | fuel, .arr xs =>
      match fuel with
      | 0 => ""
      | f + 1 =>
          String.intercalate "," (xs.map (fun v =>
            match v with
            | .null => ""
            | .undefined => ""
            | v' => jsToStringFuel f v'))
  | _, .obj _ => "[object Object]"

/-- String coercion of a JS value. -/
def jsToString (v : JSValue) : String := jsToStringFuel 100 v

/-- The body of the `forEach` over `cashback_categories` (lines 159-183),
acting on the accumulated object; the returned list records the
`console.warn` format strings emitted.  Entries with a falsy `category` or
`rate` are skipped with a warning; a truthy non-string `category` would make
`cat.category.toLowerCase()` throw a TypeError. -/
def processCat (m : CatMap) (cat : JSValue) :
    Except JsErr CatMap × List String :=
  match getProp cat "category", getProp cat "rate" with
  | .error e, _ => (.error e, [])
  | .ok _, .error e => (.error e, [])
  | .ok c, .ok r =>
      if !truthy c || !truthy r then
        (.ok m, ["Skipping invalid category:"])
      else
        match c with
        | .str cs =>
            let key := categoryKey cs
            let rateStr := jsToString r
            (.ok (updateAssoc m key
                   ⟨extractRate rateStr, jsToString c ++ " - " ++ jsToString r⟩),
             [])
        | _ => (.error .typeError, [])

/-- The `forEach` loop itself: fold `processCat` over the category entries,
a thrown error aborting the loop, warnings accumulating in order. -/
def foldCats : List JSValue → CatMap → Except JsErr CatMap × List String
  | [], m => (.ok m, [])
  | c :: cs, m =>
      match processCat m c with
      | (.error e, w) => (.error e, w)
      | (.ok m', w) =>
          match foldCats cs m' with
          | (r, w') => (r, w ++ w')

/-- The record `convertAIResponseToCardData` builds (lines 190-196). -/
structure CardData : Type where
  card_id : String
  card_name : JSValue
  bank : JSValue
  card_type : String
  cashback_categories : CatMap

/-- The tail of `convertAIResponseToCardData` once validation has passed
and the category list has been fixed up: run the `forEach` (lines 157-183)
and build the stored record (lines 185-196).  `cn` and `iss` are the
already-read `card_name` and `issuer`, `a'` is the (possibly mutated) input
object and `w0` the warnings emitted so far. -/
def finishConvert (cn iss a' : JSValue) (w0 : List String)
    (cats : List JSValue) : Except JsErr CardData × JSValue × List String :=
  match foldCats cats [] with
  | (.error e, w1) => (.error e, a', w0 ++ w1)
  | (.ok m, w1) =>
      match cn with
      | .str n => (.ok ⟨cardId n, cn, iss, "Credit Card", m⟩, a', w0 ++ w1)
      | _ => (.error .typeError, a', w0 ++ w1)

/-- `convertAIResponseToCardData` (lines 141-200).  The result is the value
returned or the error thrown, together with the input object as the caller
observes it after the call (the function assigns
`aiResponse.cashback_categories = []` when that field is absent or not an
array) and the list of `console.warn` format strings emitted. -/
def convertAIResponseToCardData (a : JSValue) :
    Except JsErr CardData × JSValue × List String :=
  match getProp a "card_name" with
  | .error e => (.error e, a, [])
  | .ok cn =>
    if !truthy cn then (.error (.missingField "card_name"), a, [])
    else
      match getProp a "issuer" with
      | .error e => (.error e, a, [])
      | .ok iss =>
        if !truthy iss then (.error (.missingField "issuer"), a, [])
        else
          match getProp a "cashback_categories" with
          | .error e => (.error e, a, [])
          | .ok cbv =>
            match cbv with
            | .arr xs => finishConvert cn iss a [] xs
            | _ =>
                finishConvert cn iss
                  (setProp a "cashback_categories" (.arr []))
                  ["Missing or invalid cashback_categories, using empty object"]
                  []

/-- `Object.entries`: own enumerable entries of an object in insertion
order; index/character entries for arrays and strings; no entries for other
primitives. -/
def jsEntries : JSValue → List (String × JSValue)
  | .obj fs => fs
  | .arr xs => xs.enum.map (fun p => (toString p.1, p.2))
  | .str s => s.data.enum.map (fun p => (toString p.1, JSValue.str ⟨[p.2]⟩))
  | _ => []

/-- A card as read back from storage by the recommendation functions; only
`card_name`, `bank` and `cashback_categories` are accessed. -/
structure RecCard : Type where
  card_name : JSValue
  bank : JSValue
  cashback_categories : JSValue

/-- `${value.description || key}` for one `Object.entries` pair. -/
def descOrKey (kv : String × JSValue) : Except JsErr String :=
  match getProp kv.2 "description" with
  | .error e => .error e
  | .ok d => .ok (jsToString (if truthy d then d else .str kv.1))

/-- One line of the card-list summary (lines 214-220 and 282-288):
`` `${card.card_name} (${card.bank}): ${categories}` `` where `categories`
is the comma-joined description list when `card.cashback_categories` is
truthy and the literal `'No cashback info'` otherwise. -/
def formatCard (card : RecCard) : Except JsErr String :=
  match (if truthy card.cashback_categories then
           ((jsEntries card.cashback_categories).mapM descOrKey).map
             (fun parts => String.intercalate ", " parts)
         else .ok "No cashback info") with
  | .error e => .error e
  | .ok categories =>
      .ok (jsToString card.card_name ++ " (" ++ jsToString card.bank ++ "): " ++
           categories)

/-- The whole `formattedCardList`: one line per card, joined by newlines. -/
def formatCardList (cards : List RecCard) : Except JsErr String :=
  (cards.mapM formatCard).map (fun ls => String.intercalate "\n" ls)

/-- Whether `pat` occurs as a contiguous sublist of the second argument. -/
def hasSubList (pat : List Char) : List Char → Bool
  | [] => pat.isEmpty
  | c :: rest => pat.isPrefixOf (c :: rest) || hasSubList pat rest

/-- Whether the literal marker `No cashback info` occurs in a string. -/
def hasMarker (s : String) : Bool := hasSubList "No cashback info".data s.data

/-- Whitespace skipped between JSON tokens. -/
def jsonWsChar (c : Char) : Bool :=
  c == ' ' || c == '\t' || c == '\n' || c == '\r'

/-- JSON string body: characters up to the closing quote, with the common
escapes; unicode escapes are not modelled (no claim exercises them). -/
def parseJsonStringChars : List Char → Option (List Char × List Char)
  | [] => none
  | '"' :: r => some ([], r)
  | '\\' :: c :: r =>
      match (match c with
             | '"' => some '"'
             | '\\' => some '\\'
             | '/' => some '/'
             | 'n' => some '\n'
             | 't' => some '\t'
             | 'r' => some '\r'
             | 'b' => some (Char.ofNat 8)
             | 'f' => some (Char.ofNat 12)
             | _ => none) with
      | none => none
      | some e =>
          match parseJsonStringChars r with
          | none => none
          | some (cs, rest) => some (e :: cs, rest)
  | c :: r =>
      match parseJsonStringChars r with
      | none => none
      | some (cs, rest) => some (c :: cs, rest)

/-- JSON number: optional minus, integer digits, optional fraction
(exponents are not modelled; no claim exercises them). -/
def parseJsonNumber (l : List Char) : Option (ℚ × List Char) :=
  let neg := match l with | '-' :: _ => true | _ => false
  let l1 := match l with | '-' :: r => r | _ => l
  let ds := l1.takeWhile Char.isDigit
  let r1 := l1.dropWhile Char.isDigit
  if ds = [] then none
  else
    let fs := match r1 with
      | '.' :: rr => rr.takeWhile Char.isDigit
      | _ => []
    let r2 := match r1 with
      | '.' :: rr => rr.dropWhile Char.isDigit
      | _ => r1
    let mag : ℚ := (digitsToNat ds : ℚ) + (digitsToNat fs : ℚ) / (10 : ℚ) ^ fs.length
    some (if neg then -mag else mag, r2)

mutual

/-- Recursive-descent JSON value parser; the fuel argument decreases on
every call, and the top-level entry point supplies more fuel than any input
can consume. -/
def parseJsonVal : Nat → List Char → Option (JSValue × List Char)
  | 0, _ => none
  | fuel + 1, l =>
      match l.dropWhile jsonWsChar with
      | 'n' :: 'u' :: 'l' :: 'l' :: r => some (.null, r)
      | 't' :: 'r' :: 'u' :: 'e' :: r => some (.bool true, r)
      | 'f' :: 'a' :: 'l' :: 's' :: 'e' :: r => some (.bool false, r)
      | '"' :: r =>
          match parseJsonStringChars r with
          | none => none
          | some (cs, rest) => some (.str ⟨cs⟩, rest)
      | '[' :: r =>
          (match r.dropWhile jsonWsChar with
           | ']' :: rest => some (.arr [], rest)
           | _ =>
              match parseJsonItems fuel r with
              | none => none
              | some (xs, rest) => some (.arr xs, rest))
      | '{' :: r =>
          (match r.dropWhile jsonWsChar with
           | '}' :: rest => some (.obj [], rest)
           | _ =>
              match parseJsonMembers fuel r with
              | none => none
              | some (fs, rest) => some (.obj fs, rest))
      | l' =>
          match parseJsonNumber l' with
          | none => none
          | some (q, rest) => some (.num (some q), rest)

/-- One-or-more comma-separated array items followed by `]`. -/
def parseJsonItems : Nat → List Char → Option (List JSValue × List Char)
  | 0, _ => none
  | fuel + 1, l =>
      match parseJsonVal fuel l with
      | none => none
      | some (v, rest) =>
          match rest.dropWhile jsonWsChar with
          | ',' :: r =>
              (match parseJsonItems fuel r with
               | none => none
               | some (xs, rest') => some (v :: xs, rest'))
          | ']' :: r => some ([v], r)
          | _ => none

/-- One-or-more comma-separated object members followed by `}`. -/
def parseJsonMembers : Nat → List Char → Option (List (String × JSValue) × List Char)
  | 0, _ => none
  | fuel + 1, l =>
      match l.dropWhile jsonWsChar with
      | '"' :: r =>
          (match parseJsonStringChars r with
           | none => none
           | some (cs, rest) =>
              match rest.dropWhile jsonWsChar with
              | ':' :: r2 =>
                  (match parseJsonVal fuel r2 with
                   | none => none
                   | some (v, rest2) =>
                      match rest2.dropWhile jsonWsChar with
                      | ',' :: r3 =>
                          (match parseJsonMembers fuel r3 with
                           | none => none
                           | some (fs, rest3) => some ((⟨cs⟩, v) :: fs, rest3))
                      | '}' :: r3 => some ([(⟨cs⟩, v)], r3)
                      | _ => none)
              | _ => none)
      | _ => none

end

/-- `JSON.parse`: the whole string must be one JSON value, up to surrounding
whitespace. -/
def parseJSONStr (s : String) : Option JSValue :=
  match parseJsonVal (s.length + 1) s.data with
  | none => none
  | some (v, rest) =>
      match rest.dropWhile jsonWsChar with
      | [] => some v
      | _ => none

/-- The transport result of one `fetch` call as the embedded code observes
it: the HTTP status, and the result of parsing the response body as JSON
(`none` models a body `response.json()` rejects on). -/
structure FetchResponse : Type where
  status : Nat
  json : Option JSValue

/-- `response.ok`: status in the inclusive range 200-299. -/
def responseOk (r : FetchResponse) : Bool :=
  200 ≤ r.status && r.status < 300

/-- `errorData.error?.message || 'Unknown error'` (the message interpolated
into the thrown error on a non-ok status). -/
def upstreamMessage (errorData : JSValue) : Except JsErr String :=
  match getProp errorData "error" with
  | .error e => .error e
  | .ok e =>
      match e with
      | .undefined => .ok "Unknown error"
      | .null => .ok "Unknown error"
      | e' =>
          match getProp e' "message" with
          | .error er => .error er
          | .ok m => .ok (if truthy m then jsToString m else "Unknown error")

/-- The response handling every one of the four OpenAI helpers performs
(e.g. lines 43-54): on a non-ok status, parse the error body and throw an
error carrying the status and upstream message; otherwise parse the body,
walk `data.choices[0].message.content` and `JSON.parse` the content. -/
def handleOpenAIResponse (r : FetchResponse) : Except JsErr JSValue :=
  if !responseOk r then
    match r.json with
    | none => .error .parseError
    | some errorData =>
        match upstreamMessage errorData with
        | .error e => .error e
        | .ok msg => .error (.externalService r.status msg)
  else
    match r.json with
    | none => .error .parseError
    | some data =>
        match getProp data "choices" with
        | .error e => .error e
        | .ok choices =>
            match getProp choices "0" with
            | .error e => .error e
            | .ok c0 =>
                match getProp c0 "message" with
                | .error e => .error e
                | .ok msgv =>
                    match getProp msgv "content" with
                    | .error e => .error e
                    | .ok content =>
                        match parseJSONStr (jsToString content) with
                        | none => .error .parseError
                        | some v => .ok v

/-- `searchCardWithOpenAI` (lines 8-60), as a function of the card name
(used only to build the request) and the mocked transport response.  The
catch block only logs and rethrows, so it is the identity on errors. -/
def searchCardWithOpenAI (cardName : String) (r : FetchResponse) :
    Except JsErr JSValue :=
  handleOpenAIResponse r

/-- `analyzeCardImage` (lines 67-134): identical response handling. -/
def analyzeCardImage (base64Image : String) (r : FetchResponse) :
    Except JsErr JSValue :=
  handleOpenAIResponse r

/-- `recommendBestCard` (lines 208-268): formats the card list (which can
itself throw before the request is made) and then performs the same
response handling. -/
def recommendBestCard (cardList : List RecCard) (purchaseDescription : String)
    (r : FetchResponse) : Except JsErr JSValue :=
  match formatCardList cardList with
  | .error e => .error e
  | .ok _ => handleOpenAIResponse r

/-- `recommendCardFromImage` (lines 276-349): identical structure to
`recommendBestCard` with an image payload. -/
def recommendCardFromImage (base64Image : String) (cardList : List RecCard)
    (r : FetchResponse) : Except JsErr JSValue :=
  match formatCardList cardList with
  | .error e => .error e
  | .ok _ => handleOpenAIResponse r

/-- A character allowed in a slug: lowercase ASCII letter, digit, or
hyphen. -/
def isSlugChar (c : Char) : Bool :=
  isAsciiLowerChar c || isAsciiDigitChar c || c == '-'

/-- A well-formed card name in the sense of the spec's slug property: it
begins and ends with an ASCII alphanumeric character. -/
def wellFormedName (s : String) : Bool :=
  match s.data.head?, s.data.getLast? with
  | some a, some b =>
      (isAsciiLowerChar a || isAsciiUpperChar a || isAsciiDigitChar a) &&
      (isAsciiLowerChar b || isAsciiUpperChar b || isAsciiDigitChar b)
  | _, _ => false

/-- The invariant each stored rate satisfies: it is NaN, or a non-negative
rational fixed by rounding to two decimal places. -/
def rateOK (info : CatInfo) : Prop :=
  info.rate = none ∨ ∃ q, info.rate = some q ∧ 0 ≤ q ∧ roundTo2 q = q

/-- On any value that is neither null nor undefined, every property read
succeeds. -/
theorem getProp_ok_of_ok (a : JSValue) (k k' : String) (v : JSValue)
    (h : getProp a k = .ok v) : ∃ v', getProp a k' = .ok v' := by
  cases a <;> simp [getProp] at h ⊢

/-- C1.  For the mocked model reply
`{"card_name":"Chase Freedom Unlimited","issuer":"Chase",
"cashback_categories":[{"category":"Dining","rate":"3%"}]}`,
`convertAIResponseToCardData` produces exactly the record with id
`chase-freedom-unlimited`, name `Chase Freedom Unlimited`, issuer `Chase`,
and a single category `dining` with rate 3 and description `Dining - 3%`
(together with the unchanged input object and no warnings). -/
theorem c1_end_to_end :
    convertAIResponseToCardData
      (.obj [("card_name", .str "Chase Freedom Unlimited"),
             ("issuer", .str "Chase"),
             ("cashback_categories",
              .arr [.obj [("category", .str "Dining"), ("rate", .str "3%")]])]) =
    (.ok ⟨"chase-freedom-unlimited", .str "Chase Freedom Unlimited", .str "Chase",
          "Credit Card", [("dining", ⟨some 3, "Dining - 3%"⟩)]⟩,
     .obj [("card_name", .str "Chase Freedom Unlimited"),
           ("issuer", .str "Chase"),
           ("cashback_categories",
            .arr [.obj [("category", .str "Dining"), ("rate", .str "3%")]])],
     []) := by
  have h : extractRate "3%" = some (roundTo2 (((3:ℕ):ℚ) + ((0:ℕ):ℚ)/(10:ℚ)^(0:ℕ))) := rfl
  have h3 : extractRate "3%" = some 3 := by rw [h]; norm_num [roundTo2]
  have hconv : convertAIResponseToCardData
      (.obj [("card_name", .str "Chase Freedom Unlimited"),
             ("issuer", .str "Chase"),
             ("cashback_categories",
              .arr [.obj [("category", .str "Dining"), ("rate", .str "3%")]])]) =
    (.ok ⟨"chase-freedom-unlimited", .str "Chase Freedom Unlimited", .str "Chase",
          "Credit Card", [("dining", ⟨extractRate "3%", "Dining - 3%"⟩)]⟩,
     .obj [("card_name", .str "Chase Freedom Unlimited"),
           ("issuer", .str "Chase"),
           ("cashback_categories",
            .arr [.obj [("category", .str "Dining"), ("rate", .str "3%")]])],
     []) := rfl
  rw [hconv, h3]

/-- C2.  Whenever `card_name` or `issuer` is absent from the parsed answer,
`convertAIResponseToCardData` throws the corresponding missing-field error
before anything else happens: the input object is returned unchanged, no
warning has been logged, and no record is produced. -/
theorem c2_missing_field_error (a : JSValue)
    (h : getProp a "card_name" = .ok .undefined ∨ getProp a "issuer" = .ok .undefined) :
    convertAIResponseToCardData a = (.error (.missingField "card_name"), a, []) ∨
    convertAIResponseToCardData a = (.error (.missingField "issuer"), a, []) := by
  rcases h with h | h
  · left
    unfold convertAIResponseToCardData
    rw [h]
    rfl
  · obtain ⟨cn, hcn⟩ := getProp_ok_of_ok a "issuer" "card_name" _ h
    by_cases ht : truthy cn = true
    · right
      unfold convertAIResponseToCardData
      rw [hcn, h]
      have hu : truthy JSValue.undefined = false := rfl
      simp [ht, hu]
    · left
      unfold convertAIResponseToCardData
      rw [hcn]
      simp [Bool.not_eq_true] at ht
      simp [ht]

/-- C2 witness: a parsed answer with no `card_name` is rejected with the
missing-field error and an unchanged input. -/
theorem c2_missing_field_error_witness :
    convertAIResponseToCardData (.obj [("issuer", .str "Chase")]) =
      (.error (.missingField "card_name"), .obj [("issuer", .str "Chase")], []) ∨
    convertAIResponseToCardData (.obj [("issuer", .str "Chase")]) =
      (.error (.missingField "issuer"), .obj [("issuer", .str "Chase")], []) :=
  c2_missing_field_error (.obj [("issuer", .str "Chase")]) (.inl rfl)

/-- C10.  A `cashback_categories` entry whose `category` or `rate` property
is present but falsy (0, "", false, null — or absent) is skipped with a
warning: the accumulated mapping is returned unchanged, so no key is ever
created for such an entry, and in particular an entry declaring a numeric
rate of 0 never produces a zero-rate category. -/
theorem c10_skip_falsy (m : CatMap) (cat c r : JSValue)
    (hc : getProp cat "category" = .ok c) (hr : getProp cat "rate" = .ok r)
    (h : truthy c = false ∨ truthy r = false) :
    processCat m cat = (.ok m, ["Skipping invalid category:"]) := by
  unfold processCat
  rw [hc, hr]
  rcases h with h | h <;> simp [h]

/-- C10 witness: an entry declaring the numeric rate 0 is skipped and adds
no key to an empty mapping. -/
theorem c10_skip_falsy_witness :
    processCat [] (.obj [("category", .str "gas"), ("rate", .num (some 0))]) =
      (.ok [], ["Skipping invalid category:"]) :=
  c10_skip_falsy [] (.obj [("category", .str "gas"), ("rate", .num (some 0))])
    (.str "gas") (.num (some 0)) rfl rfl (.inr (by norm_num [truthy]))

/-- A fully digit list is its own `takeWhile Char.isDigit`. -/
theorem takeWhile_isDigit_of_all (r : List Char) (h : r.all Char.isDigit = true) :
    r.takeWhile Char.isDigit = r := by
  induction r with
  | nil => rfl
  | cons c cs ih =>
      simp only [List.all_cons, Bool.and_eq_true] at h
      simp [List.takeWhile_cons, h.1, ih h.2]

/-- When a list has a well-formed fraction part, `parseFloat` consumes
exactly it. -/
theorem floatFracDigits_of_specFracPart (l fr : List Char)
    (h : specFracPart l = some fr) : floatFracDigits l = fr := by
  cases l with
  | nil =>
      simp only [specFracPart, Option.some.injEq] at h
      simp [floatFracDigits, ← h]
  | cons c r =>
      simp only [specFracPart] at h
      split at h
      · next hc =>
          simp only [Option.some.injEq] at h
          simp only [floatFracDigits, if_pos hc.1]
          rw [takeWhile_isDigit_of_all r hc.2]
          exact h
      · exact absurd h (by simp)

/-- Whenever the spec's decimal reading of a token is defined, the code's
`parseFloat` agrees with it. -/
theorem parseFloatTok_eq_specDecimalValue (t : String) (q : ℚ)
    (h : specDecimalValue t = some q) : parseFloatTok t = some q := by
  unfold specDecimalValue at h
  split at h
  · exact absurd h (by simp)
  · next fr heq =>
      unfold parseFloatTok
      rw [floatFracDigits_of_specFracPart _ fr heq]
      split at h
      · exact absurd h (by simp)
      · next hcond => rw [if_neg hcond]; exact h

/-- C3.  Rate extraction: when the rate string has a `[\d.]+` match that
reads as a decimal numeral, the extracted rate is that numeral's value
rounded to two decimal places; when the rate string has no match at all,
the extracted rate is 0. -/
theorem c3_rate_extraction :
    (∀ s t q, firstNumToken s = some t → specDecimalValue t = some q →
        extractRate s = some (roundTo2 q)) ∧
    (∀ s, firstNumToken s = none → extractRate s = some 0) := by
  constructor
  · intro s t q hm hd
    unfold extractRate
    rw [hm]
    simp [parseFloatTok_eq_specDecimalValue t q hd]
  · intro s hm
    unfold extractRate
    rw [hm]
    have h0 : parseFloatTok (Option.getD none "0") =
        some (((0:ℕ):ℚ) + ((0:ℕ):ℚ) / (10:ℚ) ^ (0:ℕ)) := rfl
    rw [h0]
    simp only [Option.map_some']
    norm_num [roundTo2]

/-- C3 witness: `"3.5% cashback"` extracts to 3.5 (= 7/2), and a string
with no digits or dots extracts to 0. -/
theorem c3_rate_extraction_witness :
    extractRate "3.5% cashback" = some (7/2) ∧
    extractRate "no rate here" = some 0 := by
  constructor
  · have h := c3_rate_extraction.1 "3.5% cashback" "3.5" (7/2) rfl (by
      have h1 : specDecimalValue "3.5" =
          some (((3:ℕ):ℚ) + ((5:ℕ):ℚ) / (10:ℚ) ^ (1:ℕ)) := rfl
      rw [h1]; norm_num)
    rw [h]
    norm_num [roundTo2]
  · exact c3_rate_extraction.2 "no rate here" rfl

/-- C4.  When the parsed answer has a truthy string `card_name` and truthy
`issuer` but `cashback_categories` is absent or not an array, conversion
does not fail: it logs the warning, substitutes an empty array into the
input object, and returns a record whose category mapping is empty. -/
theorem c4_invalid_categories (a cb iss : JSValue) (n : String)
    (hcn : getProp a "card_name" = .ok (.str n)) (hn : n ≠ "")
    (hiss : getProp a "issuer" = .ok iss) (hti : truthy iss = true)
    (hcb : getProp a "cashback_categories" = .ok cb)
    (hnotarr : ∀ xs, cb ≠ .arr xs) :
    convertAIResponseToCardData a =
      (.ok ⟨cardId n, .str n, iss, "Credit Card", []⟩,
       setProp a "cashback_categories" (.arr []),
       ["Missing or invalid cashback_categories, using empty object"]) := by
  unfold convertAIResponseToCardData
  rw [hcn, hiss, hcb]
  have htn : truthy (JSValue.str n) = true := by
    have hne : n.isEmpty = false := by
      rw [Bool.eq_false_iff]
      intro hcontra
      exact hn ((String.isEmpty_iff n).mp hcontra)
    simp [truthy, hne]
  cases cb with
  | arr xs => exact absurd rfl (hnotarr xs)
  | undefined => simp [htn, hti, finishConvert, foldCats]
  | null => simp [htn, hti, finishConvert, foldCats]
  | bool b => simp [htn, hti, finishConvert, foldCats]
  | num o => simp [htn, hti, finishConvert, foldCats]
  | str s => simp [htn, hti, finishConvert, foldCats]
  | obj fs => simp [htn, hti, finishConvert, foldCats]

/-- C4 witness: a string-valued `cashback_categories` yields the empty
mapping, the substituted input and the warning. -/
theorem c4_invalid_categories_witness :
    convertAIResponseToCardData
      (.obj [("card_name", .str "A"), ("issuer", .str "B"),
             ("cashback_categories", .str "none")]) =
      (.ok ⟨cardId "A", .str "A", .str "B", "Credit Card", []⟩,
       setProp (.obj [("card_name", .str "A"), ("issuer", .str "B"),
                      ("cashback_categories", .str "none")])
         "cashback_categories" (.arr []),
       ["Missing or invalid cashback_categories, using empty object"]) :=
  c4_invalid_categories _ (.str "none") (.str "B") "A" rfl (by decide) rfl rfl rfl
    (fun xs h => by cases h)

/-- The in-place overwrite of key `k'` leaves lookups of any other key
unchanged. -/
theorem lookupField_map_update_ne {α : Type} (fs : List (String × α))
    (k k' : String) (x : α) (h : ¬(k' = k)) :
    lookupField (fs.map (fun p => if p.1 = k' then (k', x) else p)) k =
      lookupField fs k := by
  induction fs with
  | nil => rfl
  | cons p ps ih =>
      simp only [List.map_cons]
      by_cases hq : p.1 = k'
      · rw [if_pos hq]
        show lookupField ((k', x) :: _) k = lookupField (p :: ps) k
        simp only [lookupField]
        rw [if_neg h, if_neg (by rw [hq]; exact h)]
        exact ih
      · rw [if_neg hq]
        simp only [lookupField]
        by_cases hp : p.1 = k
        · rw [if_pos hp, if_pos hp]
        · rw [if_neg hp, if_neg hp]
          exact ih

/-- Appending a binding for key `k'` leaves lookups of any other key
unchanged. -/
theorem lookupField_append_single_ne {α : Type} (fs : List (String × α))
    (k k' : String) (x : α) (h : ¬(k' = k)) :
    lookupField (fs ++ [(k', x)]) k = lookupField fs k := by
  induction fs with
  | nil =>
      simp only [List.nil_append, lookupField]
      rw [if_neg h]
  | cons p ps ih =>
      simp only [List.cons_append, lookupField]
      by_cases hp : p.1 = k
      · rw [if_pos hp, if_pos hp]
      · rw [if_neg hp, if_neg hp]
        exact ih

/-- Overwriting key `k'` leaves lookups of any other key unchanged. -/
theorem lookupField_updateAssoc_ne {α : Type} (fs : List (String × α))
    (k k' : String) (x : α) (h : ¬(k' = k)) :
    lookupField (updateAssoc fs k' x) k = lookupField fs k := by
  unfold updateAssoc
  split
  · exact lookupField_map_update_ne fs k k' x h
  · exact lookupField_append_single_ne fs k k' x h

/-- Writing one property leaves every other property read unchanged. -/
theorem getProp_setProp_ne (a : JSValue) (k k' : String) (x : JSValue)
    (h : ¬(k = k')) : getProp (setProp a k' x) k = getProp a k := by
  cases a with
  | obj fs =>
      simp only [setProp, getProp]
      rw [lookupField_updateAssoc_ne fs k k' x (fun hh => h hh.symm)]
  | undefined => rfl
  | null => rfl
  | bool b => rfl
  | num o => rfl
  | str s => rfl
  | arr xs => rfl

/-- C9.  `convertAIResponseToCardData` is not a pure reader of its argument:
once validation passes, if `cashback_categories` is absent or not an array
the function writes an empty array into the caller's object (so the caller
observes a changed input), leaving every other property unchanged; when
`cashback_categories` already is an array the input is left untouched. -/
theorem c9_mutation (a cn iss cb : JSValue)
    (hcn : getProp a "card_name" = .ok cn) (htc : truthy cn = true)
    (hiss : getProp a "issuer" = .ok iss) (hti : truthy iss = true)
    (hcb : getProp a "cashback_categories" = .ok cb) :
    ((∀ xs, cb ≠ .arr xs) →
        (convertAIResponseToCardData a).2.1 =
          setProp a "cashback_categories" (.arr []) ∧
        ∀ k, ¬(k = "cashback_categories") →
          getProp (setProp a "cashback_categories" (.arr [])) k = getProp a k) ∧
    (∀ xs, cb = .arr xs → (convertAIResponseToCardData a).2.1 = a) := by
  constructor
  · intro hnotarr
    constructor
    · unfold convertAIResponseToCardData
      rw [hcn, hiss, hcb]
      cases cb with
      | arr xs => exact absurd rfl (hnotarr xs)
      | undefined => cases cn <;> simp_all [finishConvert, foldCats]
      | null => cases cn <;> simp_all [finishConvert, foldCats]
      | bool b => cases cn <;> simp_all [finishConvert, foldCats]
      | num o => cases cn <;> simp_all [finishConvert, foldCats]
      | str s => cases cn <;> simp_all [finishConvert, foldCats]
      | obj fs => cases cn <;> simp_all [finishConvert, foldCats]
    · intro k hk
      exact getProp_setProp_ne a k "cashback_categories" (.arr []) hk
  · intro xs hx
    subst hx
    unfold convertAIResponseToCardData
    rw [hcn, hiss, hcb]
    simp only [htc, hti, Bool.not_true, Bool.false_eq_true, if_false]
    rcases hres : foldCats xs [] with ⟨r, w⟩
    cases r <;> cases cn <;> simp_all [finishConvert]

/-- C9 witness: with a string-valued `cashback_categories`, the object the
caller observes after the call has an empty array written into it and so
differs from the object passed in. -/
theorem c9_mutation_witness :
    (convertAIResponseToCardData
        (.obj [("card_name", .str "A"), ("issuer", .str "B"),
               ("cashback_categories", .str "oops")])).2.1 =
      setProp (.obj [("card_name", .str "A"), ("issuer", .str "B"),
                     ("cashback_categories", .str "oops")])
        "cashback_categories" (.arr []) ∧
    ¬(setProp (.obj [("card_name", .str "A"), ("issuer", .str "B"),
                     ("cashback_categories", .str "oops")])
        "cashback_categories" (.arr []) =
      .obj [("card_name", .str "A"), ("issuer", .str "B"),
            ("cashback_categories", .str "oops")]) := by
  constructor
  · exact ((c9_mutation
      (.obj [("card_name", .str "A"), ("issuer", .str "B"),
             ("cashback_categories", .str "oops")])
      (.str "A") (.str "B") (.str "oops")
      rfl rfl rfl rfl rfl).1 (fun xs h => JSValue.noConfusion h)).1
  · intro h
    simp [setProp, updateAssoc] at h

/-- Lowercasing an uppercase ASCII letter adds 32 to its code point. -/
theorem toNat_lowerChar_of_upper (c : Char) (h : isAsciiUpperChar c = true) :
    (lowerChar c).toNat = c.toNat + 32 := by
  unfold lowerChar
  rw [if_pos h]
  have hb : 65 ≤ c.toNat ∧ c.toNat ≤ 90 := by
    unfold isAsciiUpperChar at h
    simp only [Bool.and_eq_true, decide_eq_true_eq] at h
    exact h
  have hv : (c.toNat + 32).isValidChar := Or.inl (by omega)
  rw [Char.ofNat, dif_pos hv]
  rfl

/-- `lowerChar` sends an ASCII alphanumeric character to a lowercase ASCII
letter or a digit. -/
theorem lowerChar_alnum (c : Char)
    (h : (isAsciiLowerChar c || isAsciiUpperChar c || isAsciiDigitChar c) = true) :
    (isAsciiLowerChar (lowerChar c) || isAsciiDigitChar (lowerChar c)) = true := by
  rcases Bool.or_eq_true_iff.mp h with h' | hd
  · rcases Bool.or_eq_true_iff.mp h' with hl | hu
    · have : ¬ isAsciiUpperChar c = true := by
        unfold isAsciiLowerChar at hl
        unfold isAsciiUpperChar
        simp only [Bool.and_eq_true, decide_eq_true_eq] at hl ⊢
        omega
      unfold lowerChar
      rw [if_neg this]
      simp [hl]
    · have ht := toNat_lowerChar_of_upper c hu
      unfold isAsciiUpperChar at hu
      simp only [Bool.and_eq_true, decide_eq_true_eq] at hu
      unfold isAsciiLowerChar
      simp only [Bool.or_eq_true, Bool.and_eq_true, decide_eq_true_eq]
      left
      omega
  · have : ¬ isAsciiUpperChar c = true := by
      unfold isAsciiDigitChar at hd
      unfold isAsciiUpperChar
      simp only [Bool.and_eq_true, decide_eq_true_eq] at hd ⊢
      omega
    unfold lowerChar
    rw [if_neg this]
    simp [hd]

/-- A lowercase-or-digit character is kept by the strip regex, is not
whitespace, and is not a hyphen. -/
theorem lower_digit_kept (c : Char)
    (h : (isAsciiLowerChar c || isAsciiDigitChar c) = true) :
    keptChar c = true ∧ jsWhitespaceChar c = false ∧ ¬(c = '-') := by
  have hb : (97 ≤ c.toNat ∧ c.toNat ≤ 122) ∨ (48 ≤ c.toNat ∧ c.toNat ≤ 57) := by
    rcases Bool.or_eq_true_iff.mp h with h' | h'
    · left
      unfold isAsciiLowerChar at h'
      simp only [Bool.and_eq_true, decide_eq_true_eq] at h'
      exact h'
    · right
      unfold isAsciiDigitChar at h'
      simp only [Bool.and_eq_true, decide_eq_true_eq] at h'
      exact h'
  have hws : jsWhitespaceChar c = false := by
    unfold jsWhitespaceChar
    simp only [Bool.or_eq_false_iff, Bool.and_eq_false_iff,
      decide_eq_false_iff_not, Bool.and_eq_true, decide_eq_true_eq]
    omega
  refine ⟨?_, hws, ?_⟩
  · unfold keptChar
    rw [h, Bool.true_or]
  · intro hc
    have : c.toNat = 45 := by rw [hc]; rfl
    omega

/-- Every character of a collapsed list is a hyphen or a non-whitespace
character of the input. -/
theorem mem_collapseWsAux (l : List Char) :
    ∀ (b : Bool) (c : Char), c ∈ collapseWsAux b l →
      c = '-' ∨ (c ∈ l ∧ jsWhitespaceChar c = false) := by
  induction l with
  | nil => intro b c hc; simp [collapseWsAux] at hc
  | cons d rest ih =>
      intro b c hc
      by_cases hd : jsWhitespaceChar d = true
      · rw [collapseWsAux] at hc
        rw [if_pos hd] at hc
        have hrec : c ∈ collapseWsAux true rest →
            c = '-' ∨ (c ∈ d :: rest ∧ jsWhitespaceChar c = false) := by
          intro hm
          rcases ih true c hm with h' | ⟨hmem, hws⟩
          · exact Or.inl h'
          · exact Or.inr ⟨List.mem_cons_of_mem d hmem, hws⟩
        cases b with
        | true => exact hrec hc
        | false =>
            rcases List.mem_cons.mp hc with h' | h'
            · exact Or.inl h'
            · exact hrec h'
      · rw [collapseWsAux] at hc
        rw [if_neg hd] at hc
        rcases List.mem_cons.mp hc with h' | h'
        · subst h'
          exact Or.inr ⟨List.mem_cons_self c rest,
            Bool.not_eq_true _ ▸ hd⟩
        · rcases ih false c h' with h'' | ⟨hmem, hws⟩
          · exact Or.inl h''
          · exact Or.inr ⟨List.mem_cons_of_mem d hmem, hws⟩

/-- When the last element of the input is not whitespace, it is also the
last element of the collapsed output. -/
theorem collapseWsAux_getLast (x : Char) (hx : jsWhitespaceChar x = false) :
    ∀ l : List Char, l.getLast? = some x →
      ∀ b, (collapseWsAux b l).getLast? = some x := by
  intro l
  induction l with
  | nil => intro h; simp at h
  | cons d rest ih =>
      intro hl b
      cases rest with
      | nil =>
          have hdx : d = x := by simpa using hl
          subst hdx
          rw [collapseWsAux, if_neg (by simp [hx])]
          rfl
      | cons e rest' =>
          have hl' : (e :: rest').getLast? = some x := by
            rwa [List.getLast?_cons_cons] at hl
          have htail := ih hl'
          by_cases hd : jsWhitespaceChar d = true
          · rw [collapseWsAux, if_pos hd]
            cases b with
            | true => exact htail true
            | false =>
                have h2 := htail true
                cases ht : collapseWsAux true (e :: rest') with
                | nil => rw [ht] at h2; simp at h2
                | cons y ys =>
                    rw [ht] at h2
                    rw [if_neg (by simp)]
                    rwa [List.getLast?_cons_cons]
          · rw [collapseWsAux, if_neg hd]
            have h2 := htail false
            cases ht : collapseWsAux false (e :: rest') with
            | nil => rw [ht] at h2; simp at h2
            | cons y ys =>
                rw [ht] at h2
                rwa [List.getLast?_cons_cons]

/-- C5 counterexample: slugification is not idempotent.  `cardId "a b"` is
`"a-b"`, but slugifying that again strips the hyphen and yields `"ab"`. -/
theorem c5_not_idempotent : ¬(cardId (cardId "a b") = cardId "a b") := by decide

/-- C5 (amended).  The derived id is deterministic, contains only lowercase
letters, digits and hyphens, and for names beginning and ending with an
ASCII alphanumeric character has no leading or trailing hyphen.  (The
original claim's re-slugification clause fails: see `c5_not_idempotent`.) -/
theorem c5_slug_properties :
    (∀ s t : String, s = t → cardId s = cardId t) ∧
    (∀ (s : String) (c : Char), c ∈ (cardId s).data → isSlugChar c = true) ∧
    (∀ s : String, wellFormedName s = true →
        ¬((cardId s).data.head? = some '-') ∧
        ¬((cardId s).data.getLast? = some '-')) := by
  refine ⟨fun s t h => by rw [h], ?_, ?_⟩
  · intro s c hc
    have hc' : c ∈ collapseWsAux false ((s.data.map lowerChar).filter keptChar) := hc
    rcases mem_collapseWsAux _ false c hc' with h' | ⟨hmem, hws⟩
    · subst h'
      rfl
    · have hk : keptChar c = true := List.of_mem_filter hmem
      unfold keptChar at hk
      unfold isSlugChar
      rcases Bool.or_eq_true_iff.mp hk with h1 | h2
      · rw [h1, Bool.true_or]
      · rw [h2] at hws
        cases hws
  · intro s hwf
    unfold wellFormedName at hwf
    split at hwf
    · next a b hh hl =>
        rw [Bool.and_eq_true] at hwf
        have ha := lowerChar_alnum a hwf.1
        have hb := lowerChar_alnum b hwf.2
        obtain ⟨hka, hwsa, hha⟩ := lower_digit_kept (lowerChar a) ha
        obtain ⟨hkb, hwsb, hhb⟩ := lower_digit_kept (lowerChar b) hb
        constructor
        · -- no leading hyphen
          cases hd : s.data with
          | nil => rw [hd] at hh; cases hh
          | cons a' t =>
              have haa : a' = a := by
                rw [hd] at hh
                simpa using hh
              subst haa
              show ¬((slugChars s.data).head? = some '-')
              unfold slugChars
              rw [hd, List.map_cons, List.filter_cons_of_pos hka]
              rw [collapseWsAux, if_neg (by simp [hwsa])]
              intro hcon
              simp only [List.head?_cons, Option.some.injEq] at hcon
              exact hha hcon
        · -- no trailing hyphen
          obtain ⟨ys, hys⟩ := List.getLast?_eq_some_iff.mp hl
          show ¬((slugChars s.data).getLast? = some '-')
          unfold slugChars
          have hlast : ((s.data.map lowerChar).filter keptChar).getLast? =
              some (lowerChar b) := by
            rw [hys, List.map_append, List.filter_append]
            simp only [List.map_cons, List.map_nil]
            rw [List.filter_cons_of_pos hkb]
            simp only [List.filter_nil]
            exact List.getLast?_concat _
          rw [collapseWsAux_getLast (lowerChar b) hwsb _ hlast false]
          intro hcon
          simp only [Option.some.injEq] at hcon
          exact hhb hcon
    · cases hwf

/-- C5 witness: the slug of `"Chase Freedom 5X"` is made of slug characters
and has no leading or trailing hyphen. -/
theorem c5_slug_properties_witness :
    isSlugChar 'c' = true ∧
    (¬((cardId "Chase Freedom 5X").data.head? = some '-') ∧
     ¬((cardId "Chase Freedom 5X").data.getLast? = some '-')) :=
  ⟨c5_slug_properties.2.1 "Chase Freedom 5X" 'c' (by decide),
   c5_slug_properties.2.2 "Chase Freedom 5X" (by decide)⟩


/-- C6 counterexample: the rate string `"."` is matched by `[\d.]+` but
`parseFloat(".")` is NaN, so the conversion succeeds while storing a NaN
(not a non-negative number) as the rate of category `x`. -/
theorem c6_nan_rate :
    (convertAIResponseToCardData
      (.obj [("card_name", .str "A"), ("issuer", .str "B"),
             ("cashback_categories",
              .arr [.obj [("category", .str "x"), ("rate", .str ".")]])])).1 =
      .ok ⟨"a", .str "A", .str "B", "Credit Card",
           [("x", ⟨none, "x - ."⟩)]⟩ := rfl

/-- Rounding to two decimal places preserves non-negativity. -/
theorem roundTo2_nonneg (q : ℚ) (h : 0 ≤ q) : 0 ≤ roundTo2 q := by
  unfold roundTo2
  apply div_nonneg _ (by norm_num)
  have h2 : (0 : ℤ) ≤ ⌊q * 100 + 1 / 2⌋ := Int.floor_nonneg.mpr (by positivity)
  exact_mod_cast h2

/-- Rounding to two decimal places is a projection. -/
theorem roundTo2_idem (q : ℚ) : roundTo2 (roundTo2 q) = roundTo2 q := by
  unfold roundTo2
  have h1 : (⌊q * 100 + 1 / 2⌋ : ℚ) / 100 * 100 = (⌊q * 100 + 1 / 2⌋ : ℚ) := by
    field_simp
  rw [h1]
  have h2 : ⌊(⌊q * 100 + 1 / 2⌋ : ℚ) + 1 / 2⌋ = ⌊q * 100 + 1 / 2⌋ := by
    rw [add_comm, Int.floor_add_int]
    norm_num
  rw [h2]

/-- `parseFloat` of a digits-and-dots token is never negative. -/
theorem parseFloatTok_nonneg (s : String) (q : ℚ)
    (h : parseFloatTok s = some q) : 0 ≤ q := by
  unfold parseFloatTok at h
  split at h
  · exact absurd h (by simp)
  · simp only [Option.some.injEq] at h
    rw [← h]
    positivity

/-- Whatever rate string comes in, the stored rate is NaN or a non-negative
two-decimal fixed point. -/
theorem extractRate_rateOK (s d : String) : rateOK ⟨extractRate s, d⟩ := by
  unfold rateOK extractRate
  cases hp : parseFloatTok ((firstNumToken s).getD "0") with
  | none => left; simp [hp]
  | some p =>
      right
      exact ⟨roundTo2 p, by simp [hp],
        roundTo2_nonneg p (parseFloatTok_nonneg _ p hp), roundTo2_idem p⟩

/-- Inserting a rate-sound value preserves rate-soundness of the mapping. -/
theorem updateAssoc_rateOK (m : CatMap) (k : String) (v : CatInfo)
    (hm : ∀ kv ∈ m, rateOK kv.2) (hv : rateOK v) :
    ∀ kv ∈ updateAssoc m k v, rateOK kv.2 := by
  unfold updateAssoc
  split
  · intro kv hkv
    rcases List.mem_map.mp hkv with ⟨p, hp, heq⟩
    by_cases hpk : p.1 = k
    · rw [if_pos hpk] at heq
      rw [← heq]
      exact hv
    · rw [if_neg hpk] at heq
      rw [← heq]
      exact hm p hp
  · intro kv hkv
    rcases List.mem_append.mp hkv with h' | h'
    · exact hm kv h'
    · have hkv' : kv = (k, v) := by simpa using h'
      rw [hkv']
      exact hv

/-- One `forEach` step preserves rate-soundness. -/
theorem processCat_rateOK (m m' : CatMap) (cat : JSValue) (w : List String)
    (hm : ∀ kv ∈ m, rateOK kv.2) (h : processCat m cat = (.ok m', w)) :
    ∀ kv ∈ m', rateOK kv.2 := by
  unfold processCat at h
  split at h
  · simp at h
  · simp at h
  · split at h
    · simp only [Prod.mk.injEq, Except.ok.injEq] at h
      rw [← h.1]
      exact hm
    · split at h
      · rename_i cs heq hnc
        simp only [Prod.mk.injEq, Except.ok.injEq] at h
        rw [← h.1]
        exact updateAssoc_rateOK m (categoryKey cs) _ hm (extractRate_rateOK _ _)
      · simp at h

/-- The whole `forEach` preserves rate-soundness. -/
theorem foldCats_rateOK (cats : List JSValue) :
    ∀ (m m' : CatMap) (w : List String),
      (∀ kv ∈ m, rateOK kv.2) → foldCats cats m = (.ok m', w) →
      ∀ kv ∈ m', rateOK kv.2 := by
  induction cats with
  | nil =>
      intro m m' w hm h
      unfold foldCats at h
      simp only [Prod.mk.injEq, Except.ok.injEq] at h
      rw [← h.1]
      exact hm
  | cons c cs ih =>
      intro m m' w hm h
      unfold foldCats at h
      split at h
      · simp at h
      · rename_i m1 w1 hp
        split at h
        rename_i r' w' hf
        simp only [Prod.mk.injEq] at h
        exact ih m1 m' w' (processCat_rateOK m m1 c w1 hm hp)
          (by rw [hf, h.1])

/-- When the conversion tail succeeds, the record's category mapping is
exactly the result of the `forEach` on an initially empty object. -/
theorem finishConvert_ok (cn iss a' : JSValue) (w0 : List String)
    (cats : List JSValue) (d : CardData) (post : JSValue) (w : List String)
    (h : finishConvert cn iss a' w0 cats = (.ok d, post, w)) :
    ∃ w1, foldCats cats [] = (.ok d.cashback_categories, w1) := by
  unfold finishConvert at h
  split at h
  · simp at h
  · rename_i m w1 hf
    split at h
    · simp only [Prod.mk.injEq, Except.ok.injEq] at h
      refine ⟨w1, ?_⟩
      rw [hf, ← h.1]
    · simp at h

/-- C6 (amended).  Every rate stored by a successful conversion is either
NaN (`none`, produced by a matched token with no digits such as `"."`) or a
non-negative rational that is a fixed point of rounding to two decimal
places.  (The original claim's "never NaN, always non-negative" fails on
the NaN case: see `c6_nan_rate`.) -/
theorem c6_rate_invariant (a : JSValue) (d : CardData) (post : JSValue)
    (w : List String) (h : convertAIResponseToCardData a = (.ok d, post, w)) :
    ∀ kv ∈ d.cashback_categories, rateOK kv.2 := by
  unfold convertAIResponseToCardData at h
  split at h
  · simp at h
  · split at h
    · simp at h
    · split at h
      · simp at h
      · split at h
        · simp at h
        · split at h
          · simp at h
          · split at h
            · obtain ⟨w1, hf⟩ := finishConvert_ok _ _ _ _ _ _ _ _ h
              exact foldCats_rateOK _ [] _ w1
                (by intro kv hkv; simp at hkv) hf
            · obtain ⟨w1, hf⟩ := finishConvert_ok _ _ _ _ _ _ _ _ h
              exact foldCats_rateOK _ [] _ w1
                (by intro kv hkv; simp at hkv) hf

/-- C6 witness: the rate stored for a `"3%"` entry satisfies the amended
invariant. -/
theorem c6_rate_invariant_witness : rateOK ⟨extractRate "3%", "x - 3%"⟩ :=
  c6_rate_invariant
    (.obj [("card_name", .str "A"), ("issuer", .str "B"),
           ("cashback_categories",
            .arr [.obj [("category", .str "x"), ("rate", .str "3%")]])])
    ⟨"a", .str "A", .str "B", "Credit Card",
     [("x", ⟨extractRate "3%", "x - 3%"⟩)]⟩
    (.obj [("card_name", .str "A"), ("issuer", .str "B"),
           ("cashback_categories",
            .arr [.obj [("category", .str "x"), ("rate", .str "3%")]])])
    [] rfl ("x", ⟨extractRate "3%", "x - 3%"⟩) (by simp)

/-- Any list is a prefix of itself. -/
theorem isPrefixOf_refl_list (l : List Char) : l.isPrefixOf l = true := by
  induction l with
  | nil => rfl
  | cons c cs ih => simp [List.isPrefixOf, ih]

/-- A pattern occurs in any list that ends with it. -/
theorem hasSubList_append_self (pat l : List Char) :
    hasSubList pat (l ++ pat) = true := by
  induction l with
  | nil =>
      rw [List.nil_append]
      cases pat with
      | nil => rfl
      | cons c cs => simp [hasSubList, isPrefixOf_refl_list]
  | cons c cs ih =>
      rw [List.cons_append]
      unfold hasSubList
      rw [ih, Bool.or_true]

/-- The marker occurs in any string that ends with it. -/
theorem hasMarker_append (s : String) :
    hasMarker (s ++ "No cashback info") = true := by
  unfold hasMarker
  rw [String.data_append]
  exact hasSubList_append_self _ s.data

/-- C7 counterexample: a card whose `cashback_categories` is a present but
empty object has no category data, yet its formatted line is `"A (B): "`
with an empty category list and no `No cashback info` marker (an empty
object is truthy, so the marker branch is not taken). -/
theorem c7_empty_mapping_no_marker :
    jsEntries (JSValue.obj []) = [] ∧
    formatCard ⟨.str "A", .str "B", .obj []⟩ = .ok "A (B): " ∧
    hasMarker "A (B): " = false := by
  refine ⟨rfl, rfl, ?_⟩
  decide

/-- C7 (amended).  The `No cashback info` marker is substituted exactly
when the card's `cashback_categories` field is falsy (absent, null, 0, "",
false or NaN); the formatted line then ends with the literal marker.  (A
present-but-empty mapping instead yields an empty category list: see
`c7_empty_mapping_no_marker`.) -/
theorem c7_marker_on_falsy (card : RecCard)
    (h : truthy card.cashback_categories = false) :
    formatCard card =
      .ok (jsToString card.card_name ++ " (" ++ jsToString card.bank ++ "): " ++
           "No cashback info") ∧
    hasMarker (jsToString card.card_name ++ " (" ++ jsToString card.bank ++
           "): " ++ "No cashback info") = true := by
  constructor
  · unfold formatCard
    rw [h]
    rfl
  · exact hasMarker_append _

/-- C7 witness: a card with an undefined `cashback_categories` formats with
the marker. -/
theorem c7_marker_on_falsy_witness :
    formatCard ⟨.str "A", .str "B", .undefined⟩ =
      .ok ("A" ++ " (" ++ "B" ++ "): " ++ "No cashback info") ∧
    hasMarker ("A" ++ " (" ++ "B" ++ "): " ++ "No cashback info") = true :=
  c7_marker_on_falsy ⟨.str "A", .str "B", .undefined⟩ rfl

/-- C8 counterexample: a 500 response whose error body is not valid JSON
makes `response.json()` reject, so the operation fails with the parse
error, which carries no status — not with an error carrying 500. -/
theorem c8_nonjson_error_body :
    searchCardWithOpenAI "Chase Freedom" ⟨500, none⟩ = .error .parseError ∧
    carriedStatus .parseError = none := ⟨rfl, rfl⟩

/-- C8 (amended).  For every transport response with a non-2xx status whose
body parses as JSON, all four operations — both extractions and both
recommendations (granted a formattable card list, read before the call) —
fail with the error carrying the response status and the upstream message,
and no result is produced.  (A non-JSON error body instead surfaces the
body-parse error without the status: see `c8_nonjson_error_body`.) -/
theorem c8_external_service_error (r : FetchResponse) (j : JSValue)
    (msg : String) (cards : List RecCard) (fmt : String)
    (name img desc : String)
    (hok : responseOk r = false) (hj : r.json = some j)
    (hmsg : upstreamMessage j = .ok msg)
    (hfmt : formatCardList cards = .ok fmt) :
    searchCardWithOpenAI name r = .error (.externalService r.status msg) ∧
    analyzeCardImage img r = .error (.externalService r.status msg) ∧
    recommendBestCard cards desc r = .error (.externalService r.status msg) ∧
    recommendCardFromImage img cards r = .error (.externalService r.status msg) := by
  have hh : handleOpenAIResponse r = .error (.externalService r.status msg) := by
    unfold handleOpenAIResponse
    rw [hok, hj]
    simp only [Bool.not_false, if_true]
    rw [hmsg]
  refine ⟨hh, hh, ?_, ?_⟩
  · unfold recommendBestCard
    rw [hfmt]
    exact hh
  · unfold recommendCardFromImage
    rw [hfmt]
    exact hh

/-- C8 witness: a 401 response with a JSON error body makes all four
operations fail with the error carrying status 401 and the upstream
message. -/
theorem c8_external_service_error_witness :
    searchCardWithOpenAI "Chase Freedom"
        ⟨401, some (.obj [("error", .obj [("message", .str "Invalid API key")])])⟩ =
      .error (.externalService 401 "Invalid API key") ∧
    analyzeCardImage "imagedata"
        ⟨401, some (.obj [("error", .obj [("message", .str "Invalid API key")])])⟩ =
      .error (.externalService 401 "Invalid API key") ∧
    recommendBestCard [] "dinner at Chipotle"
        ⟨401, some (.obj [("error", .obj [("message", .str "Invalid API key")])])⟩ =
      .error (.externalService 401 "Invalid API key") ∧
    recommendCardFromImage "imagedata" []
        ⟨401, some (.obj [("error", .obj [("message", .str "Invalid API key")])])⟩ =
      .error (.externalService 401 "Invalid API key") :=
  c8_external_service_error
    ⟨401, some (.obj [("error", .obj [("message", .str "Invalid API key")])])⟩
    (.obj [("error", .obj [("message", .str "Invalid API key")])])
    "Invalid API key" [] "" "Chase Freedom" "imagedata" "dinner at Chipotle"
    rfl rfl rfl rfl
